import Mathlib

/-!
Shallow embedding of the imgsync sync orchestrator core (package `core`,
and the `Gcr` synchronizer in package `imgsync`), together with proofs of
the claims of the specification about it.

Conventions of the embedding:
- Go slices of images become Lean lists; Go `int` becomes `Int` (with the
  guarded branches reducing to `Nat` arithmetic); Go integer division
  (truncation toward zero) is `Int.tdiv`.
- A Go slice expression `images[start:end]` panics when out of bounds, so
  the embedded slicing operations return `Option`: `none` models a panic.
- External effects (manifest fetch attempts, the copy operation, directory
  creation and file writes) are passed in as explicit result environments;
  stateful caches and the on-disk manifest store are association lists
  threaded through the functions.
-/

namespace Imgsync

/-- Error values surfaced by fallible operations (opaque messages). -/
abbrev Err := String

/-- Opaque serialized manifest bytes (`[]byte` in the source). -/
abbrev Bytes := List Nat

/-- Image identity tuple, from the `Image` struct used by both packages:
`{Repo, User, Name, Tag}`. -/
structure Image where
  Repo : String
  User : String
  Name : String
  Tag : String
  deriving DecidableEq

/-- Modelled from the spec: `Image.String()` is declared outside src; the
spec fixes the string form `repo/namespace/name:tag`, which is the cache
key and log identity. -/
def Image.toKey (i : Image) : String :=
  i.Repo ++ "/" ++ i.User ++ "/" ++ i.Name ++ ":" ++ i.Tag

/-- Per-run configuration, from the `SyncOption` struct. The unexported
`reportCh` channel is modelled by its capacity (`none` = nil channel). -/
structure SyncOption where
  User : String
  Password : String
  Timeout : Int
  Limit : Int
  BatchSize : Int
  BatchNumber : Int
  OnlyDownloadManifests : Bool
  Report : Bool
  ReportLevel : Int
  QueryLimit : Int
  NameSpace : String
  Kubeadm : Bool
  reportCh : Option Int
  deriving DecidableEq

/-- Go slice expression `xs[s:]` for an `int` index `s`: defined (and equal
to dropping the first `s` elements) when `0 <= s <= len(xs)`, a panic
(`none`) otherwise. -/
def goSliceFrom (xs : List α) (s : Int) : Option (List α) :=
  if 0 ≤ s ∧ s ≤ (xs.length : Int) then some (xs.drop s.toNat) else none

/-- Go slice expression `xs[s:e]` for `int` indices: defined when
`0 <= s <= e <= len(xs)`, a panic (`none`) otherwise. -/
def goSlice (xs : List α) (s e : Int) : Option (List α) :=
  if 0 ≤ s ∧ s ≤ e ∧ e ≤ (xs.length : Int) then
    some ((xs.drop s.toNat).take (e - s).toNat)
  else none

/-- Function `batchProcess` from the core package: selects the configured batch of
the image list. Integer division is the Go one (truncation toward zero,
`Int.tdiv`); both operands are positive on the taken branch. The local source variable `n := len(images) / opt.BatchSize` is inlined. -/
def batchProcess (images : List α) (opt : SyncOption) : Option (List α) :=
  if opt.BatchSize > 0 ∧ opt.BatchNumber > 0 ∧ (images.length : Int) > opt.BatchSize then
    if opt.BatchNumber ≥ Int.tdiv (images.length : Int) opt.BatchSize then
      goSliceFrom images (opt.BatchSize * (Int.tdiv (images.length : Int) opt.BatchSize - 1))
    else
      goSlice images (opt.BatchSize * (opt.BatchNumber - 1)) (opt.BatchSize * opt.BatchNumber)
  else
    some images

/-- A `SyncOption` with the given batch size and batch number and neutral
values elsewhere (batch selection reads only those two fields). -/
def optBatch (bs bn : Int) : SyncOption :=
  { User := "", Password := "", Timeout := 0, Limit := 0, BatchSize := bs,
    BatchNumber := bn, OnlyDownloadManifests := false, Report := false,
    ReportLevel := 0, QueryLimit := 0, NameSpace := "", Kubeadm := false,
    reportCh := none }

/-- Modelled from the spec: the `retry` helper is declared outside src.
Per the retry policy of the spec it calls the action up to `count` times with a
fixed inter-attempt delay, stops at the first success (`none`), and
exhausting retries surfaces the last error. The action takes the attempt
index so successive attempts may yield different results. -/
def retryGo (act : Nat → Option Err) : Nat → Nat → Option Err
  | _, 0 => none
  | i, n + 1 =>
    match act i with
    | none => none
    | some e => if n = 0 then some e else retryGo act (i + 1) n

/-- Modelled from the spec: entry point of the `retry` helper (see
`retryGo`), starting from attempt index 0. -/
def retry (count : Nat) (act : Nat → Option Err) : Option Err :=
  retryGo act 0 count

/-- One attempt of `getImageManifest` (external manifest fetch, §6 of the
spec): the triple `(m, l, err)` of the Go call, with `α` the opaque
single-platform manifest type and `β` the manifest-list type. -/
abbrev FetchAttempt (α β : Type) := Nat → Option α × Option β × Option Err

/-- The fetch loop inside `checkSync`: `retry` wrapped around
`getImageManifest`, keeping the `m`, `l` values assigned by the last
attempt executed (the Go closure writes them to captured variables). -/
def fetchWithRetry (att : FetchAttempt α β) (i : Nat) :
    Nat → Option α × Option β × Option Err
  | 0 => (none, none, none)
  | n + 1 =>
    match att i with
    | (m, l, none) => (m, l, none)
    | (m, l, some e) => if n = 0 then (m, l, some e) else fetchWithRetry att (i + 1) n

/-- A cached fingerprint is either a single manifest or a manifest list;
`reflect.DeepEqual` between the fresh value and the cached one is equality
in the corresponding summand. -/
abbrev Fingerprint (α β : Type) := α ⊕ β

/-- The fingerprint cache `manifestsMap` keyed by `Image.String()`. -/
abbrev ManifestsMap (α β : Type) := List (String × Fingerprint α β)

/-- Go `reflect.DeepEqual(m, val)` for a fresh single manifest `m` against the
cached fingerprint: true only when `m` is non-nil and `val` stores an equal
single manifest. -/
def manDeepEqual [DecidableEq α] (m : Option α) (val : Fingerprint α β) : Bool :=
  match m, val with
  | some a, Sum.inl a' => decide (a = a')
  | _, _ => false

/-- Go `reflect.DeepEqual(l, val)` for a fresh manifest list `l` against the
cached fingerprint: true only when `l` is non-nil and `val` stores an equal
manifest list. -/
def listDeepEqual [DecidableEq β] (l : Option β) (val : Fingerprint α β) : Bool :=
  match l, val with
  | some b, Sum.inr b' => decide (b = b')
  | _, _ => false

/-- Function `checkSync` from the core package: fetch the fresh manifest with retry
(`DefaultGoRequestRetry` attempts, here the parameter `count`); on terminal
fetch failure return `(nil, nil, false)`; otherwise skip (`false`) exactly
when the cache holds a deeply-equal entry, else return the fresh values and
`true`. -/
def checkSync [DecidableEq α] [DecidableEq β] (count : Nat) (att : FetchAttempt α β)
    (manifestsMap : ManifestsMap α β) (image : Image) : Option α × Option β × Bool :=
  match fetchWithRetry att 0 count with
  | (_, _, some _) => (none, none, false)
  | (m, l, none) =>
    match manifestsMap.lookup image.toKey with
    | some val =>
      if manDeepEqual m val || listDeepEqual l val then (none, none, false)
      else (m, l, true)
    | none => (m, l, true)

/-- Per-image outcome taxonomy. Modelled from the spec: the code only logs,
so the constructors label the distinct return paths of the per-image task
(`SyncOutcome` in the spec; `FailedPersist` is in the taxonomy of the spec but
no code path produces it, a persistence failure keeping `Synced`). -/
inductive Outcome where
  | SkippedUnchanged
  | Synced
  | FailedFetch
  | FailedCopy
  | FailedPersist
  deriving DecidableEq

/-- Results of the external effects one per-image task may perform:
manifest fetch attempts, marshalling, copy attempts (`sync2DockerHub`
results per retry attempt), and the persistence steps (stat/mkdir/file
write). -/
structure TaskEnv (α β : Type) where
  fetchAtt : FetchAttempt α β
  marshalErr : Option Err
  bytes : Bytes
  copyAtt : Nat → Option Err
  statErr : Option Err
  mkdirErr : Option Err
  writeErr : Option Err

/-- The on-disk manifest store, keyed by storage path. -/
abbrev Store := List (String × Bytes)

/-- Storage path `filepath.Join(ManifestDir, Repo, User, Name, Tag+".json")`
of the manifest file of an image (`ManifestDir` is a constant path prefix). -/
def Image.manifestPath (i : Image) : String :=
  "manifests/" ++ i.Repo ++ "/" ++ i.User ++ "/" ++ i.Name ++ "/" ++ i.Tag ++ ".json"

/-- The per-image task body submitted to the worker pool in `SyncImages`
(lines 90-132 of the core file), for an image that passed the cancellation
check: run `checkSync`; return early when no sync is needed (classified
`FailedFetch` when the fetch failed terminally, `SkippedUnchanged`
otherwise); else marshal (a marshal error is only logged), copy via `retry`
(`defaultSyncRetry` attempts, here `copyCount`); on terminal copy failure
return with nothing persisted; on success persist the manifest bytes, any
mkdir/write error being only logged. Returns the outcome, whether
`sync2DockerHub` was invoked, and the cache and store after the task. -/
def syncImagesTask [DecidableEq α] [DecidableEq β] (fetchCount copyCount : Nat)
    (env : TaskEnv α β) (manifestsMap : ManifestsMap α β) (store : Store)
    (image : Image) : Outcome × Bool × ManifestsMap α β × Store :=
  if (checkSync fetchCount env.fetchAtt manifestsMap image).2.2 = false then
    if (fetchWithRetry env.fetchAtt 0 fetchCount).2.2.isSome then
      (Outcome.FailedFetch, false, manifestsMap, store)
    else
      (Outcome.SkippedUnchanged, false, manifestsMap, store)
  else
    match retry copyCount env.copyAtt with
    | some _ => (Outcome.FailedCopy, decide (0 < copyCount), manifestsMap, store)
    | none =>
      (Outcome.Synced, decide (0 < copyCount), manifestsMap,
        if env.writeErr.isSome then store else (image.manifestPath, env.bytes) :: store)

/-- Results of the external steps `sync2DockerHub` may perform: policy
context creation, source/destination reference parsing, and the copy
operation itself. -/
structure CopyEnv where
  policyErr : Option Err
  parseSrcErr : Option Err
  parseDestErr : Option Err
  copyErr : Option Err

/-- Function `sync2DockerHub` from the core package: with `OnlyDownloadManifests`
set it returns nil immediately; otherwise it builds the policy context and
the two references (each failure returned as-is) and performs the copy.
The second component records whether `copy.Image` was invoked. -/
def sync2DockerHub (_image : Image) (opt : SyncOption) (env : CopyEnv) :
    Option Err × Bool :=
  if opt.OnlyDownloadManifests then (none, false)
  else
    match env.policyErr with
    | some e => (some e, false)
    | none =>
      match env.parseSrcErr with
      | some e => (some e, false)
      | none =>
        match env.parseDestErr with
        | some e => (some e, false)
        | none => (env.copyErr, true)

/-- Modelled from the spec: the `DefaultLimit` constant is declared outside
src; the spec only says the concurrency limit is defaulted to a constant
when unset, so the claims depend on the name, not the value. -/
def DefaultLimit : Int := 20

/-- The option-normalisation prefix of `SyncImages` (lines 74-79): default
`Limit` when zero, then create the report channel with capacity `Limit`
when reporting is on. The second component is the size the worker pool is
created with immediately afterwards (line 81). -/
def syncImagesSetup (opt : SyncOption) : SyncOption × Int :=
  let opt1 := if opt.Limit = 0 then { opt with Limit := DefaultLimit } else opt
  let opt2 := if opt1.Report then { opt1 with reportCh := some opt1.Limit } else opt1
  (opt2, opt2.Limit)

/-- An operation on a bounded slot channel: a send into the channel
acquires a slot, a receive from it releases one. -/
inductive SlotOp where
  | acquire
  | release
  deriving DecidableEq

/-- Slot-channel operations performed by one worker goroutine of
`Gcr.Sync` (gcr.go lines 80-90): the deferred `<-g.processLimitCh` always
runs; the send `g.processLimitCh <- 1` happens only when the select takes
the non-cancelled branch. -/
def gcrSyncGoroutineSlotOps (cancelled : Bool) : List SlotOp :=
  if cancelled then [SlotOp.release]
  else [SlotOp.acquire, SlotOp.release]

/-- Slot-channel operations performed by one tag-query goroutine of
`Gcr.gcrImageList` (gcr.go lines 109-145): the send `g.queryLimitCh <- 1`
runs unconditionally before the body, and the deferred receive runs on
every path (HTTP error return, unmarshal error return, success). -/
def gcrImageListGoroutineSlotOps (_tagsFetchFails _unmarshalFails : Bool) : List SlotOp :=
  [SlotOp.acquire] ++ [SlotOp.release]

/-- A slot trace of a goroutine is well-bracketed when no initial segment releases more
slots than it acquired and the trace ends balanced: every release is
matched by an earlier acquisition by the same goroutine. -/
def wellBracketedFrom : Nat → List SlotOp → Bool
  | bal, [] => decide (bal = 0)
  | bal, SlotOp.acquire :: rest => wellBracketedFrom (bal + 1) rest
  | bal, SlotOp.release :: rest =>
    match bal with
    | 0 => false
    | b + 1 => wellBracketedFrom b rest

/-- Well-bracketing of a whole trace, starting with no slot held. -/
def wellBracketed (ops : List SlotOp) : Bool :=
  wellBracketedFrom 0 ops

/-- Number of occurrences of a given slot operation in a trace. -/
def countSlotOp (o : SlotOp) (ops : List SlotOp) : Nat :=
  ops.countP (fun x => x = o)

/-- Evaluation of `batchProcess` in the terms of the spec: identity on the
degenerate configurations, the absorbing tail partition when
`batchNumber >= n`, and the half-open slice otherwise. Shared by the
batch-partitioner claims. -/
theorem batchProcess_eq {α : Type} (images : List α) (opt : SyncOption) :
    batchProcess images opt =
      if opt.BatchSize ≤ 0 ∨ opt.BatchNumber ≤ 0 ∨ (images.length : Int) ≤ opt.BatchSize then
        some images
      else if opt.BatchNumber ≥ Int.tdiv (images.length : Int) opt.BatchSize then
        some (images.drop
          (opt.BatchSize * (Int.tdiv (images.length : Int) opt.BatchSize - 1)).toNat)
      else
        some ((images.drop (opt.BatchSize * (opt.BatchNumber - 1)).toNat).take
          (opt.BatchSize * opt.BatchNumber - opt.BatchSize * (opt.BatchNumber - 1)).toNat) := by
  unfold batchProcess goSliceFrom goSlice
  by_cases hg : opt.BatchSize > 0 ∧ opt.BatchNumber > 0 ∧ (images.length : Int) > opt.BatchSize
  case neg =>
    rw [if_neg hg, if_pos (by omega)]
  case pos =>
    obtain ⟨hbs, hbn, hlen⟩ := hg
    have houter : ¬(opt.BatchSize ≤ 0 ∨ opt.BatchNumber ≤ 0 ∨
        (images.length : Int) ≤ opt.BatchSize) := by omega
    rw [if_pos ⟨hbs, hbn, hlen⟩, if_neg houter]
    have hB : ((opt.BatchSize.toNat : Nat) : Int) = opt.BatchSize :=
      Int.toNat_of_nonneg (le_of_lt hbs)
    have htd : Int.tdiv (images.length : Int) opt.BatchSize =
        ((images.length / opt.BatchSize.toNat : Nat) : Int) := by
      conv_lhs => rw [← hB]
      exact (Int.ofNat_tdiv images.length opt.BatchSize.toNat).symm
    have hBpos : 0 < opt.BatchSize.toNat := by omega
    have hBN : opt.BatchSize.toNat < images.length := by omega
    have hdiv1 : 1 ≤ images.length / opt.BatchSize.toNat :=
      (Nat.one_le_div_iff hBpos).mpr (le_of_lt hBN)
    have hmul1 : opt.BatchSize.toNat * (images.length / opt.BatchSize.toNat) ≤ images.length := by
      rw [Nat.mul_comm]
      exact Nat.div_mul_le_self images.length opt.BatchSize.toNat
    by_cases hge : opt.BatchNumber ≥ Int.tdiv (images.length : Int) opt.BatchSize
    case pos =>
      rw [if_pos hge, if_pos hge]
      have hstart : opt.BatchSize * (Int.tdiv (images.length : Int) opt.BatchSize - 1) =
          ((opt.BatchSize.toNat * (images.length / opt.BatchSize.toNat - 1) : Nat) : Int) := by
        rw [htd, Nat.cast_mul, Nat.cast_sub hdiv1, Nat.cast_one, hB]
      rw [hstart]
      have hup : opt.BatchSize.toNat * (images.length / opt.BatchSize.toNat - 1) ≤
          images.length :=
        le_trans (Nat.mul_le_mul_left _ (Nat.sub_le _ _)) hmul1
      rw [if_pos ⟨Int.natCast_nonneg _, by exact_mod_cast hup⟩]
    case neg =>
      rw [if_neg hge, if_neg hge]
      have hlt2 : opt.BatchNumber < ((images.length / opt.BatchSize.toNat : Nat) : Int) := by
        rw [← htd]
        exact lt_of_not_ge hge
      have hKc : ((opt.BatchNumber.toNat : Nat) : Int) = opt.BatchNumber :=
        Int.toNat_of_nonneg (le_of_lt hbn)
      have hKlt : opt.BatchNumber.toNat < images.length / opt.BatchSize.toNat := by omega
      have hK1 : 1 ≤ opt.BatchNumber.toNat := by omega
      have hs : opt.BatchSize * (opt.BatchNumber - 1) =
          ((opt.BatchSize.toNat * (opt.BatchNumber.toNat - 1) : Nat) : Int) := by
        rw [Nat.cast_mul, Nat.cast_sub hK1, Nat.cast_one, hB, hKc]
      have he : opt.BatchSize * opt.BatchNumber =
          ((opt.BatchSize.toNat * opt.BatchNumber.toNat : Nat) : Int) := by
        rw [Nat.cast_mul, hB, hKc]
      rw [hs, he]
      have h1 : opt.BatchSize.toNat * (opt.BatchNumber.toNat - 1) ≤
          opt.BatchSize.toNat * opt.BatchNumber.toNat :=
        Nat.mul_le_mul_left _ (Nat.sub_le _ _)
      have h2 : opt.BatchSize.toNat * opt.BatchNumber.toNat ≤ images.length :=
        le_trans (Nat.mul_le_mul_left _ (le_of_lt hKlt)) hmul1
      rw [if_pos ⟨Int.natCast_nonneg _, by exact_mod_cast h1, by exact_mod_cast h2⟩]

/-- C1: `batchProcess` returns its input unchanged when `batchSize <= 0`,
`batchNumber <= 0`, or `len(images) <= batchSize`; otherwise, with
`n = len(images) / batchSize` (Go integer division), it returns the suffix
`images[batchSize*(n-1):]` when `batchNumber >= n`, and the half-open slice
`images[batchSize*(batchNumber-1) : batchSize*batchNumber]` otherwise. -/
theorem batchProcess_semantics {α : Type} (images : List α) (opt : SyncOption) :
    batchProcess images opt =
      if opt.BatchSize ≤ 0 ∨ opt.BatchNumber ≤ 0 ∨ (images.length : Int) ≤ opt.BatchSize then
        some images
      else if opt.BatchNumber ≥ Int.tdiv (images.length : Int) opt.BatchSize then
        some (images.drop
          (opt.BatchSize * (Int.tdiv (images.length : Int) opt.BatchSize - 1)).toNat)
      else
        some ((images.drop (opt.BatchSize * (opt.BatchNumber - 1)).toNat).take
          (opt.BatchSize * opt.BatchNumber - opt.BatchSize * (opt.BatchNumber - 1)).toNat) :=
  batchProcess_eq images opt

/-- C10: for every image list and all integer batch parameters (negative,
zero, or out of range included), every slice taken inside `batchProcess` is
in bounds, so the function is total and never panics (`none` models a Go
slice-bounds panic). -/
theorem batchProcess_total {α : Type} (images : List α) (opt : SyncOption) :
    ∃ r, batchProcess images opt = some r := by
  rw [batchProcess_eq images opt]
  by_cases h1 : opt.BatchSize ≤ 0 ∨ opt.BatchNumber ≤ 0 ∨ (images.length : Int) ≤ opt.BatchSize
  case pos =>
    rw [if_pos h1]
    exact ⟨images, rfl⟩
  case neg =>
    rw [if_neg h1]
    by_cases h2 : opt.BatchNumber ≥ Int.tdiv (images.length : Int) opt.BatchSize
    case pos =>
      rw [if_pos h2]
      exact ⟨_, rfl⟩
    case neg =>
      rw [if_neg h2]
      exact ⟨_, rfl⟩

/-- The three images `a:1`, `b:1`, `c:1` of the boundary scenario in the spec. -/
def imgA : Image :=
  { Repo := "gcr.io", User := "google-containers", Name := "a", Tag := "1" }

/-- Second scenario image `b:1`. -/
def imgB : Image :=
  { Repo := "gcr.io", User := "google-containers", Name := "b", Tag := "1" }

/-- Third scenario image `c:1`. -/
def imgC : Image :=
  { Repo := "gcr.io", User := "google-containers", Name := "c", Tag := "1" }

/-- C3 counterexample: on `[a:1, b:1, c:1]` with `batchSize = 2` and
`batchNumber = 2`, `batchProcess` does not return `[c:1]`: `n = 3/2 = 1`,
`batchNumber >= n` takes the tail rule with `start = 2*(1-1) = 0`, so the
whole list comes back. -/
theorem batchProcess_scenario_not_c1 :
    batchProcess [imgA, imgB, imgC] (optBatch 2 2) ≠ some [imgC] := by
  decide

/-- C3 amended: on `[a:1, b:1, c:1]` with `batchSize = 2` and
`batchNumber = 2`, the tail rule fires with `start = batchSize*(n-1) = 0`
and `batchProcess` returns the entire list `[a:1, b:1, c:1]`. -/
theorem batchProcess_scenario_full_list :
    batchProcess [imgA, imgB, imgC] (optBatch 2 2) = some [imgA, imgB, imgC] := by
  decide

/-- Concatenating the `B`-sized chunks below index `m` with the tail from
`B*m` recovers the whole list. -/
theorem chunksFlatten {α : Type} (xs : List α) (B : Nat) :
    ∀ m : Nat, ((List.range m).map (fun k => (xs.drop (B * k)).take B)).flatten ++
      xs.drop (B * m) = xs := by
  intro m
  induction m with
  | zero => simp
  | succ m ih =>
    rw [List.range_succ, List.map_append, List.flatten_append]
    simp only [List.map_cons, List.map_nil, List.flatten_cons, List.flatten_nil,
      List.append_nil]
    have hms : B * (m + 1) = B * m + B := by ring
    rw [List.append_assoc, hms, ← List.drop_drop, List.take_append_drop]
    exact ih

/-- A take-of-drop is a contiguous run of the original list. -/
theorem contigTakeDrop {α : Type} (xs : List α) (a b : Nat) :
    ∃ s t, s ++ (xs.drop a).take b ++ t = xs :=
  ⟨xs.take a, (xs.drop a).drop b, by
    rw [List.append_assoc, List.take_append_drop, List.take_append_drop]⟩

/-- A drop is a contiguous run of the original list. -/
theorem contigDrop {α : Type} (xs : List α) (a : Nat) :
    ∃ s t, s ++ xs.drop a ++ t = xs :=
  ⟨xs.take a, [], by rw [List.append_nil, List.take_append_drop]⟩

/-- Nat-level value of `batchProcess` on the absorbing tail branch. -/
theorem batchProcess_tail {α : Type} (images : List α) (opt : SyncOption)
    (hbs : 0 < opt.BatchSize) (hbn : 0 < opt.BatchNumber)
    (hlen : opt.BatchSize < (images.length : Int))
    (hge : opt.BatchNumber ≥ Int.tdiv (images.length : Int) opt.BatchSize) :
    batchProcess images opt =
      some (images.drop
        (opt.BatchSize.toNat * (images.length / opt.BatchSize.toNat - 1))) := by
  have hB : ((opt.BatchSize.toNat : Nat) : Int) = opt.BatchSize :=
    Int.toNat_of_nonneg (le_of_lt hbs)
  have hBpos : 0 < opt.BatchSize.toNat := by omega
  have hBN : opt.BatchSize.toNat < images.length := by omega
  have htd : Int.tdiv (images.length : Int) opt.BatchSize =
      ((images.length / opt.BatchSize.toNat : Nat) : Int) := by
    conv_lhs => rw [← hB]
    exact (Int.ofNat_tdiv images.length opt.BatchSize.toNat).symm
  have hdiv1 : 1 ≤ images.length / opt.BatchSize.toNat :=
    (Nat.one_le_div_iff hBpos).mpr (le_of_lt hBN)
  have houter : ¬(opt.BatchSize ≤ 0 ∨ opt.BatchNumber ≤ 0 ∨
      (images.length : Int) ≤ opt.BatchSize) := by omega
  rw [batchProcess_eq, if_neg houter, if_pos hge]
  have hstart : opt.BatchSize * (Int.tdiv (images.length : Int) opt.BatchSize - 1) =
      ((opt.BatchSize.toNat * (images.length / opt.BatchSize.toNat - 1) : Nat) : Int) := by
    rw [htd, Nat.cast_mul, Nat.cast_sub hdiv1, Nat.cast_one, hB]
  rw [hstart, Int.toNat_natCast]

/-- Nat-level value of `batchProcess` on the interior-slice branch. -/
theorem batchProcess_slice {α : Type} (images : List α) (opt : SyncOption)
    (hbs : 0 < opt.BatchSize) (hbn : 0 < opt.BatchNumber)
    (hlen : opt.BatchSize < (images.length : Int))
    (hlt : opt.BatchNumber < Int.tdiv (images.length : Int) opt.BatchSize) :
    batchProcess images opt =
      some ((images.drop
        (opt.BatchSize.toNat * (opt.BatchNumber.toNat - 1))).take opt.BatchSize.toNat) := by
  have hB : ((opt.BatchSize.toNat : Nat) : Int) = opt.BatchSize :=
    Int.toNat_of_nonneg (le_of_lt hbs)
  have hKc : ((opt.BatchNumber.toNat : Nat) : Int) = opt.BatchNumber :=
    Int.toNat_of_nonneg (le_of_lt hbn)
  have hK1 : 1 ≤ opt.BatchNumber.toNat := by omega
  have houter : ¬(opt.BatchSize ≤ 0 ∨ opt.BatchNumber ≤ 0 ∨
      (images.length : Int) ≤ opt.BatchSize) := by omega
  rw [batchProcess_eq, if_neg houter, if_neg (not_le.mpr hlt)]
  have hdiff : opt.BatchSize * opt.BatchNumber - opt.BatchSize * (opt.BatchNumber - 1) =
      opt.BatchSize := by ring
  have hs : opt.BatchSize * (opt.BatchNumber - 1) =
      ((opt.BatchSize.toNat * (opt.BatchNumber.toNat - 1) : Nat) : Int) := by
    rw [Nat.cast_mul, Nat.cast_sub hK1, Nat.cast_one, hB, hKc]
  rw [hdiff, hs, Int.toNat_natCast]

/-- C2: for every image list and every positive `batchSize` smaller than
the list length, each `batchProcess` output is a contiguous run of the
input (preserving relative order), and the partitions for
`batchNumber = 1 .. n` (with `n = len / batchSize`) concatenate back to
exactly the input — pairwise disjoint, no gaps, no duplicated elements,
the final partition absorbing the remainder. -/
theorem batchProcess_partition_cover {α : Type} (images : List α) (opt : SyncOption)
    (hbs : 0 < opt.BatchSize) (hlen : opt.BatchSize < (images.length : Int)) :
    (∀ bn : Int, ∃ out,
        batchProcess images { opt with BatchNumber := bn } = some out ∧
        ∃ s t, s ++ out ++ t = images) ∧
    ∃ parts : List (List α),
      parts.length = (Int.tdiv (images.length : Int) opt.BatchSize).toNat ∧
      (∀ k : Nat, k < parts.length →
        batchProcess images { opt with BatchNumber := (k : Int) + 1 } = parts[k]?) ∧
      parts.flatten = images := by
  have hB : ((opt.BatchSize.toNat : Nat) : Int) = opt.BatchSize :=
    Int.toNat_of_nonneg (le_of_lt hbs)
  have hBpos : 0 < opt.BatchSize.toNat := by omega
  have hBN : opt.BatchSize.toNat < images.length := by omega
  have htd : Int.tdiv (images.length : Int) opt.BatchSize =
      ((images.length / opt.BatchSize.toNat : Nat) : Int) := by
    conv_lhs => rw [← hB]
    exact (Int.ofNat_tdiv images.length opt.BatchSize.toNat).symm
  have hn1 : 1 ≤ images.length / opt.BatchSize.toNat :=
    (Nat.one_le_div_iff hBpos).mpr (le_of_lt hBN)
  constructor
  · intro bn
    by_cases h0 : 0 < bn
    · by_cases h2 : bn ≥ Int.tdiv (images.length : Int) opt.BatchSize
      · exact ⟨_, batchProcess_tail images { opt with BatchNumber := bn } hbs h0 hlen h2,
          contigDrop images _⟩
      · exact ⟨_, batchProcess_slice images { opt with BatchNumber := bn } hbs h0 hlen
          (lt_of_not_ge h2), contigTakeDrop images _ _⟩
    · refine ⟨images, ?_, [], [], by simp⟩
      rw [batchProcess_eq]
      rw [if_pos (Or.inr (Or.inl (show bn ≤ 0 by omega)))]
  · refine ⟨(List.range (images.length / opt.BatchSize.toNat - 1)).map
      (fun k => (images.drop (opt.BatchSize.toNat * k)).take opt.BatchSize.toNat) ++
      [images.drop (opt.BatchSize.toNat * (images.length / opt.BatchSize.toNat - 1))],
      ?_, ?_, ?_⟩
    · simp only [List.length_append, List.length_map, List.length_range, List.length_singleton]
      rw [htd, Int.toNat_natCast]
      omega
    · intro k hk
      have hklen : k < images.length / opt.BatchSize.toNat := by
        simp only [List.length_append, List.length_map, List.length_range,
          List.length_singleton] at hk
        omega
      by_cases hkn : k + 1 < images.length / opt.BatchSize.toNat
      · have hlt2 : ((k : Int) + 1) < Int.tdiv (images.length : Int) opt.BatchSize := by
          rw [htd]
          exact_mod_cast hkn
        rw [batchProcess_slice images { opt with BatchNumber := (k : Int) + 1 } hbs
          (by show (0 : Int) < (k : Int) + 1; omega) hlen hlt2]
        have hmaplen : k < ((List.range (images.length / opt.BatchSize.toNat - 1)).map
            (fun k => (images.drop (opt.BatchSize.toNat * k)).take opt.BatchSize.toNat)).length := by
          simp only [List.length_map, List.length_range]
          omega
        rw [List.getElem?_append_left hmaplen, List.getElem?_map,
          List.getElem?_range (show k < images.length / opt.BatchSize.toNat - 1 by omega)]
        have hidx : (((k : Int) + 1).toNat : Nat) = k + 1 := by omega
        have hproj : ({ opt with BatchNumber := (k : Int) + 1 } : SyncOption).BatchNumber.toNat
            = k + 1 := hidx
        rw [hproj]
        simp
      · have hkeq : k = images.length / opt.BatchSize.toNat - 1 := by omega
        have hge2 : ((k : Int) + 1) ≥ Int.tdiv (images.length : Int) opt.BatchSize := by
          rw [htd]
          have : ((k : Int) + 1) ≥ ((k + 1 : Nat) : Int) := by push_cast; omega
          omega
        rw [batchProcess_tail images { opt with BatchNumber := (k : Int) + 1 } hbs
          (by show (0 : Int) < (k : Int) + 1; omega) hlen hge2]
        have hmaplen2 : ((List.range (images.length / opt.BatchSize.toNat - 1)).map
            (fun k => (images.drop (opt.BatchSize.toNat * k)).take opt.BatchSize.toNat)).length
            ≤ k := by
          simp only [List.length_map, List.length_range]
          omega
        rw [List.getElem?_append_right hmaplen2]
        simp only [List.length_map, List.length_range]
        rw [hkeq, Nat.sub_self]
        rfl
    · rw [List.flatten_append]
      simp only [List.flatten_cons, List.flatten_nil, List.append_nil]
      exact chunksFlatten images opt.BatchSize.toNat (images.length / opt.BatchSize.toNat - 1)

/-- Witness for C2 at the concrete list `[10, 20, 30, 40, 50]` with
`batchSize = 2`. -/
theorem batchProcess_partition_cover_witness :
    (∀ bn : Int, ∃ out,
        batchProcess [10, 20, 30, 40, 50] { optBatch 2 0 with BatchNumber := bn } = some out ∧
        ∃ s t, s ++ out ++ t = [10, 20, 30, 40, 50]) ∧
    ∃ parts : List (List Nat),
      parts.length = (Int.tdiv (5 : Int) 2).toNat ∧
      (∀ k : Nat, k < parts.length →
        batchProcess [10, 20, 30, 40, 50] { optBatch 2 0 with BatchNumber := (k : Int) + 1 } =
          parts[k]?) ∧
      parts.flatten = [10, 20, 30, 40, 50] :=
  batchProcess_partition_cover [10, 20, 30, 40, 50] (optBatch 2 0) (by decide) (by decide)

/-- C4: for an image whose fresh manifest fetch succeeds, `checkSync`
reports `needSync = false` exactly when `manifestsMap` holds an entry under
the string key of the image that is deeply equal to the freshly fetched
manifest or manifest list; in every other successful-fetch case it reports
`needSync = true`. -/
theorem checkSync_skip_iff_cached_equal {α β : Type} [DecidableEq α] [DecidableEq β]
    (count : Nat) (att : FetchAttempt α β) (manifestsMap : ManifestsMap α β)
    (image : Image) (m : Option α) (l : Option β)
    (hfetch : fetchWithRetry att 0 count = (m, l, none)) :
    (checkSync count att manifestsMap image).2.2 = false ↔
      ∃ val, manifestsMap.lookup image.toKey = some val ∧
        (manDeepEqual m val = true ∨ listDeepEqual l val = true) := by
  unfold checkSync
  rw [hfetch]
  dsimp only
  cases hl : manifestsMap.lookup image.toKey with
  | none => simp
  | some val =>
    dsimp only
    by_cases hd : (manDeepEqual m val || listDeepEqual l val) = true
    case pos =>
      rw [if_pos hd]
      simp only [Bool.or_eq_true] at hd
      constructor
      · intro _
        exact ⟨val, rfl, hd⟩
      · intro _
        rfl
    case neg =>
      rw [if_neg hd]
      simp only [Bool.or_eq_true] at hd
      constructor
      · intro h
        exact absurd h (by simp)
      · rintro ⟨val2, hv2, hd2⟩
        injection hv2 with hv3
        subst hv3
        exact absurd hd2 hd

/-- Witness for C4: a one-attempt successful fetch of the manifest `3`
with a deeply-equal cached entry, giving `needSync = false`. -/
theorem checkSync_skip_iff_cached_equal_witness :
    (fetchWithRetry (fun _ => ((some 3, none, none) : Option Nat × Option Nat × Option Err))
        0 1 = (some 3, none, none)) ∧
    ((checkSync 1 (fun _ => ((some 3, none, none) : Option Nat × Option Nat × Option Err))
        [(imgA.toKey, Sum.inl 3)] imgA).2.2 = false ↔
      ∃ val, ([(imgA.toKey, Sum.inl 3)] : ManifestsMap Nat Nat).lookup imgA.toKey = some val ∧
        (manDeepEqual (some 3) val = true ∨ listDeepEqual (none : Option Nat) val = true)) :=
  ⟨by decide, checkSync_skip_iff_cached_equal 1 _ _ imgA (some 3) none (by decide)⟩

/-- When every fetch attempt fails, the retried fetch ends with an error,
whatever the starting attempt index. -/
theorem fetchWithRetry_fail {α β : Type} (att : FetchAttempt α β)
    (hfail : ∀ i, ((att i).2.2).isSome = true) :
    ∀ n i, 0 < n → ((fetchWithRetry att i n).2.2).isSome = true := by
  intro n
  induction n with
  | zero =>
    intro i h
    exact absurd h (by omega)
  | succ n ih =>
    intro i _
    have hi := hfail i
    simp only [fetchWithRetry]
    cases hatt : att i with
    | mk m rest =>
      cases rest with
      | mk l e =>
        rw [hatt] at hi
        cases e with
        | none => simp at hi
        | some err =>
          dsimp only
          by_cases hn : n = 0
          case pos =>
            rw [if_pos hn]
            rfl
          case neg =>
            rw [if_neg hn]
            exact ih (i + 1) (by omega)

/-- When every fetch attempt fails, `checkSync` returns `(nil, nil, false)`
without consulting the cache. -/
theorem checkSync_fetchFail {α β : Type} [DecidableEq α] [DecidableEq β]
    (count : Nat) (att : FetchAttempt α β) (manifestsMap : ManifestsMap α β)
    (image : Image) (hc : 0 < count) (hfail : ∀ i, ((att i).2.2).isSome = true) :
    checkSync count att manifestsMap image = (none, none, false) := by
  unfold checkSync
  have h := fetchWithRetry_fail att hfail count 0 hc
  cases hr : fetchWithRetry att 0 count with
  | mk m rest =>
    cases rest with
    | mk l e =>
      rw [hr] at h
      cases e with
      | none => simp at h
      | some err => rfl

/-- C5: for an image whose manifest fetch fails on every retry attempt,
the per-image task ends with outcome `FailedFetch`, never invokes
`sync2DockerHub`, and leaves both the fingerprint cache and the manifest
store untouched. -/
theorem syncImagesTask_fetchFail {α β : Type} [DecidableEq α] [DecidableEq β]
    (fetchCount copyCount : Nat) (env : TaskEnv α β) (manifestsMap : ManifestsMap α β)
    (store : Store) (image : Image) (hc : 0 < fetchCount)
    (hfail : ∀ i, ((env.fetchAtt i).2.2).isSome = true) :
    syncImagesTask fetchCount copyCount env manifestsMap store image =
      (Outcome.FailedFetch, false, manifestsMap, store) := by
  unfold syncImagesTask
  rw [checkSync_fetchFail fetchCount env.fetchAtt manifestsMap image hc hfail]
  rw [if_pos rfl]
  rw [if_pos (fetchWithRetry_fail env.fetchAtt hfail fetchCount 0 hc)]

/-- Witness for C5: one always-failing fetch attempt yields `FailedFetch`
with no copy and unchanged cache and store. -/
theorem syncImagesTask_fetchFail_witness :
    syncImagesTask 1 1
        { fetchAtt := fun _ => ((none, none, some "e") : Option Nat × Option Nat × Option Err),
          marshalErr := none, bytes := [], copyAtt := fun _ => none,
          statErr := none, mkdirErr := none, writeErr := none }
        [] [] imgA = (Outcome.FailedFetch, false, [], []) :=
  syncImagesTask_fetchFail 1 1 _ [] [] imgA (by decide) (fun _ => rfl)

/-- C6: the per-image task persists the manifest only after the copy
succeeded within the retry budget (a changed store implies copy success
and outcome `Synced`); on terminal copy failure it returns `FailedCopy`
with nothing persisted; and when the copy succeeded the outcome is
`Synced` for every persistence-step result, so a directory-creation or
file-write failure never downgrades the outcome. -/
theorem syncImagesTask_persistence {α β : Type} [DecidableEq α] [DecidableEq β]
    (fetchCount copyCount : Nat) (env : TaskEnv α β) (manifestsMap : ManifestsMap α β)
    (store : Store) (image : Image) :
    ((syncImagesTask fetchCount copyCount env manifestsMap store image).2.2.2 ≠ store →
      retry copyCount env.copyAtt = none ∧
      (syncImagesTask fetchCount copyCount env manifestsMap store image).1 =
        Outcome.Synced) ∧
    ((checkSync fetchCount env.fetchAtt manifestsMap image).2.2 = true →
      ∀ e, retry copyCount env.copyAtt = some e →
        syncImagesTask fetchCount copyCount env manifestsMap store image =
          (Outcome.FailedCopy, decide (0 < copyCount), manifestsMap, store)) ∧
    ((checkSync fetchCount env.fetchAtt manifestsMap image).2.2 = true →
      retry copyCount env.copyAtt = none →
      (syncImagesTask fetchCount copyCount env manifestsMap store image).1 =
        Outcome.Synced) := by
  unfold syncImagesTask
  cases hcs : (checkSync fetchCount env.fetchAtt manifestsMap image).2.2 with
  | false =>
    rw [if_pos rfl]
    by_cases hf : ((fetchWithRetry env.fetchAtt 0 fetchCount).2.2).isSome = true
    case pos =>
      rw [if_pos hf]
      refine ⟨fun h => absurd rfl h, fun h2 => ?_, fun h2 => ?_⟩
      · exact absurd h2 (by simp)
      · exact absurd h2 (by simp)
    case neg =>
      rw [if_neg hf]
      refine ⟨fun h => absurd rfl h, fun h2 => ?_, fun h2 => ?_⟩
      · exact absurd h2 (by simp)
      · exact absurd h2 (by simp)
  | true =>
    rw [if_neg (by simp)]
    cases hr : retry copyCount env.copyAtt with
    | some e =>
      dsimp only
      refine ⟨fun h => absurd rfl h, fun _ e2 he2 => rfl, fun _ hnone => ?_⟩
      cases hnone
    | none =>
      dsimp only
      refine ⟨fun _ => ⟨rfl, rfl⟩, fun _ e2 he2 => ?_, fun _ _ => rfl⟩
      cases he2

/-- Witness for C6: a successful one-attempt fetch with an empty cache
(sync needed), a succeeding copy and a succeeding write. -/
theorem syncImagesTask_persistence_witness :
    ((syncImagesTask 1 1
        { fetchAtt := fun _ => ((some 1, none, none) : Option Nat × Option Nat × Option Err),
          marshalErr := none, bytes := [7], copyAtt := fun _ => none,
          statErr := none, mkdirErr := none, writeErr := none }
        [] [] imgA).2.2.2 ≠ ([] : Store) →
      retry 1 (fun _ => none) = none ∧
      (syncImagesTask 1 1
        { fetchAtt := fun _ => ((some 1, none, none) : Option Nat × Option Nat × Option Err),
          marshalErr := none, bytes := [7], copyAtt := fun _ => none,
          statErr := none, mkdirErr := none, writeErr := none }
        [] [] imgA).1 = Outcome.Synced) ∧
    ((checkSync 1 (fun _ => ((some 1, none, none) : Option Nat × Option Nat × Option Err))
        [] imgA).2.2 = true →
      ∀ e, retry 1 (fun _ => none) = some e →
        syncImagesTask 1 1
          { fetchAtt := fun _ => ((some 1, none, none) : Option Nat × Option Nat × Option Err),
            marshalErr := none, bytes := [7], copyAtt := fun _ => none,
            statErr := none, mkdirErr := none, writeErr := none }
          [] [] imgA = (Outcome.FailedCopy, decide (0 < 1), [], [])) ∧
    ((checkSync 1 (fun _ => ((some 1, none, none) : Option Nat × Option Nat × Option Err))
        [] imgA).2.2 = true →
      retry 1 (fun _ => none) = none →
      (syncImagesTask 1 1
        { fetchAtt := fun _ => ((some 1, none, none) : Option Nat × Option Nat × Option Err),
          marshalErr := none, bytes := [7], copyAtt := fun _ => none,
          statErr := none, mkdirErr := none, writeErr := none }
        [] [] imgA).1 = Outcome.Synced) :=
  syncImagesTask_persistence 1 1 _ [] [] imgA

/-- C7: with `OnlyDownloadManifests` set, `sync2DockerHub` returns nil
immediately and performs no copy operation. -/
theorem sync2DockerHub_manifestsOnly (image : Image) (opt : SyncOption) (env : CopyEnv)
    (h : opt.OnlyDownloadManifests = true) :
    sync2DockerHub image opt env = (none, false) := by
  unfold sync2DockerHub
  rw [if_pos h]

/-- Witness for C7 at a concrete option record with the flag set. -/
theorem sync2DockerHub_manifestsOnly_witness :
    sync2DockerHub imgA { optBatch 0 0 with OnlyDownloadManifests := true }
      { policyErr := none, parseSrcErr := none, parseDestErr := none, copyErr := none } =
      (none, false) :=
  sync2DockerHub_manifestsOnly imgA _ _ rfl

/-- C9: `SyncImages` defaults a zero `Limit` to `DefaultLimit` before the
worker pool is created (the pool size always equals the normalised limit),
and when reporting is on the report channel is created with capacity equal
to the resulting limit. -/
theorem syncImagesSetup_limits (opt : SyncOption) :
    (syncImagesSetup opt).2 = (syncImagesSetup opt).1.Limit ∧
    (opt.Limit = 0 → (syncImagesSetup opt).1.Limit = DefaultLimit) ∧
    (opt.Report = true →
      (syncImagesSetup opt).1.reportCh = some ((syncImagesSetup opt).1.Limit)) := by
  unfold syncImagesSetup
  by_cases hL : opt.Limit = 0
  case pos =>
    by_cases hR : opt.Report = true
    case pos =>
      simp [hL, hR]
    case neg =>
      simp [hL, hR]
  case neg =>
    by_cases hR : opt.Report = true
    case pos =>
      simp [hL, hR]
    case neg =>
      simp [hL, hR]

/-- Witness for C9 at a zero limit with reporting on. -/
theorem syncImagesSetup_limits_witness :
    (syncImagesSetup { optBatch 0 0 with Report := true }).2 =
      (syncImagesSetup { optBatch 0 0 with Report := true }).1.Limit ∧
    (({ optBatch 0 0 with Report := true } : SyncOption).Limit = 0 →
      (syncImagesSetup { optBatch 0 0 with Report := true }).1.Limit = DefaultLimit) ∧
    (({ optBatch 0 0 with Report := true } : SyncOption).Report = true →
      (syncImagesSetup { optBatch 0 0 with Report := true }).1.reportCh =
        some ((syncImagesSetup { optBatch 0 0 with Report := true }).1.Limit)) :=
  syncImagesSetup_limits { optBatch 0 0 with Report := true }

/-- C8: at the failing input — a `Gcr.Sync` worker goroutine whose select
takes the `ctx.Done()` branch — the slot trace of the goroutine is a bare
release with zero acquisitions: the deferred `<-g.processLimitCh` releases
a slot the goroutine never acquired, violating the claimed matching
acquire/release discipline. -/
theorem gcrSync_cancelled_releases_unacquired :
    wellBracketed (gcrSyncGoroutineSlotOps true) = false ∧
    countSlotOp SlotOp.acquire (gcrSyncGoroutineSlotOps true) = 0 ∧
    countSlotOp SlotOp.release (gcrSyncGoroutineSlotOps true) = 1 := by
  decide

/-- Context for C8: every other goroutine path does satisfy the
discipline — the uncancelled `Gcr.Sync` worker and all `Gcr.gcrImageList`
query goroutines have well-bracketed slot traces. -/
theorem gcrSlotOps_balanced_otherwise :
    wellBracketed (gcrSyncGoroutineSlotOps false) = true ∧
    ∀ b1 b2, wellBracketed (gcrImageListGoroutineSlotOps b1 b2) = true := by
  decide

end Imgsync
